import Mathlib

/-!
Verification of the pyrocko FDSN station-metadata core
(`src/fdsn/station.py`): epoch validity (`spans`), channel grouping
(`get_channel_groups`), best-channel selection (`choose_channels`),
response assembly (`get_pyrocko_response` at the PolesZeros, ResponseStage,
Response and FDSNStationXML levels) and position averaging
(`pyrocko_station_from_channels`).

Python floats are embedded as `ℚ` (exact arithmetic; the compared constants
are taken verbatim from the source).  Where NaN and infinities matter
(position averaging), the extended type `FVal` is used.  Fallible code is
embedded in `Except PyErr`; non-fatal `logger.warn` calls are collected as
structured `Diag` values returned alongside results.  Python dictionaries
are embedded as association lists with first-key-wins lookup and
update-or-append assignment; all derived facts are insensitive to dict
iteration order (argued at each use site).

The elementary transfer-function objects constructed by the source
(`trace.PoleZeroResponse`, `trace.IntegrationResponse`,
`trace.DifferentiationResponse`, `trace.MultiplyResponse`) live in
`pyrocko/trace.py`, which is not part of the sources under study; they are
modelled from the spec as a tagged union `TF` of elementary terms, a
composite response being the list of its factors.  The numeric evaluation
of a pole-zero response at a frequency (also in `pyrocko/trace.py`) is
modelled from the spec as an abstract magnitude function `MagFun` passed
as a parameter to the assembly engine.
-/

set_option autoImplicit false

attribute [local semireducible] Rat.sub Rat.add Rat.mul Rat.inv

/-- A time query: no argument, a single instant, or an interval.
Timestamps are embedded as rationals (epoch seconds). -/
inductive TimeQuery where
  | always : TimeQuery
  | instant (t : ℚ) : TimeQuery
  | interval (a b : ℚ) : TimeQuery
deriving DecidableEq

/-- A Python float value: finite rational, the two infinities, or NaN. -/
inductive FVal where
  | fin (q : ℚ) : FVal
  | pinf : FVal
  | ninf : FVal
  | nan : FVal
deriving DecidableEq

/-- IEEE equality on embedded floats: NaN compares unequal to everything,
infinities compare equal to themselves. -/
def FVal.feq : FVal → FVal → Bool
  | .fin a, .fin b => a == b
  | .pinf, .pinf => true
  | .ninf, .ninf => true
  | _, _ => false

/-- Is the value finite (neither infinite nor NaN)?  Embeds `num.isfinite`. -/
def FVal.isFinite : FVal → Bool
  | .fin _ => true
  | _ => false

/-- Is the value NaN? -/
def FVal.isNan : FVal → Bool
  | .nan => true
  | _ => false

/-- IEEE addition on embedded floats. -/
def FVal.fadd : FVal → FVal → FVal
  | .fin a, .fin b => .fin (a + b)
  | .fin _, .pinf => .pinf
  | .fin _, .ninf => .ninf
  | .pinf, .fin _ => .pinf
  | .ninf, .fin _ => .ninf
  | .pinf, .pinf => .pinf
  | .ninf, .ninf => .ninf
  | .pinf, .ninf => .nan
  | .ninf, .pinf => .nan
  | _, _ => .nan

/-- Division of an embedded float by a natural count, with the IEEE
conventions for a zero divisor (`x/0 = ±inf`, `0/0 = nan`). -/
def FVal.divNat : FVal → ℕ → FVal
  | .fin q, 0 => if q = 0 then .nan else if 0 < q then .pinf else .ninf
  | .fin q, n => .fin (q / n)
  | .pinf, _ => .pinf
  | .ninf, _ => .ninf
  | .nan, _ => .nan

/-- A Python value as fed to `same`: a float or an int (the two runtime
types the sample-rate consistency check can meet). -/
inductive PyVal where
  | pfloat (q : ℚ) : PyVal
  | pint (n : ℤ) : PyVal
deriving DecidableEq

/-- Same runtime type (Python `type(a) == type(b)`). -/
def PyVal.tagEq : PyVal → PyVal → Bool
  | .pfloat _, .pfloat _ => true
  | .pint _, .pint _ => true
  | _, _ => false

/-- Embeds `same(x, eps=0.0)` from `station.py`: `False` if the list mixes
runtime types; otherwise floats are compared within `eps` of the first
element and other values by equality.  `none` embeds the `IndexError`
raised on an empty list. -/
def same (x : List PyVal) (eps : ℚ) : Option Bool :=
  match x with
  | [] => none
  | x0 :: _ =>
    some (if x.any (fun r => !PyVal.tagEq x0 r) then false
      else match x0 with
      | .pfloat q => x.all (fun r => match r with
          | .pfloat q2 => decide (|q2 - q| ≤ eps)
          | .pint _ => false)
      | .pint _ => x.all (fun r => r == x0))

/-- The error outcomes of the embedded code: the two named exceptions of
the response engine, the location-consistency exception, and the unguarded
Python failures (`AttributeError` on a `None` attribute access,
`IndexError` on an empty subscript). -/
inductive PyErr where
  | noResponseInformation : PyErr
  | multipleResponseInformation : PyErr
  | inconsistentChannelLocations : PyErr
  | attrError : PyErr
  | indexError : PyErr
deriving DecidableEq

deriving instance DecidableEq for Except

/-- Embeds `BaseNode.spans(*args)`: variadic dispatch on the query shape. -/
def BaseNode.spans (start_date end_date : Option ℚ) : TimeQuery → Bool
  | .always => true
  | .instant t =>
    (match start_date with
      | none => true
      | some s => decide (s ≤ t)) &&
    (match end_date with
      | none => true
      | some e => decide (t ≤ e))
  | .interval a b =>
    (match start_date with
      | none => true
      | some s => decide (b ≥ s)) &&
    (match end_date with
      | none => true
      | some e => decide (e ≥ a))

/-- `Units`: a unit name with optional description. -/
structure UnitsM where
  name : String
  description : Option String := none
deriving DecidableEq

/-- `Gain`: value and frequency, both optional. -/
structure GainM where
  value : Option ℚ := none
  frequency : Option ℚ := none
deriving DecidableEq

/-- `Sensitivity`: a gain with unit information. -/
structure SensitivityM where
  value : Option ℚ := none
  frequency : Option ℚ := none
  input_units : Option UnitsM := none
  output_units : Option UnitsM := none
deriving DecidableEq

/-- `PoleZero`: a complex number given by real and imaginary parts. -/
structure PoleZeroM where
  real : ℚ
  imaginary : ℚ
deriving DecidableEq

/-- A complex number as a pair (real, imaginary). -/
abbrev CQ := ℚ × ℚ

/-- `PoleZero.value()`. -/
def PoleZeroM.value (p : PoleZeroM) : CQ := (p.real, p.imaginary)

/-- `PolesZeros`: complex poles and zeros with a normalization constant. -/
structure PolesZerosM where
  pz_transfer_function_type : String
  normalization_factor : ℚ := 1
  normalization_frequency : ℚ
  zero_list : List PoleZeroM := []
  pole_list : List PoleZeroM := []
deriving DecidableEq

/-- `Coefficients` (content unused by the assembly engine, presence
matters). -/
structure CoefficientsM where
  cf_transfer_function_type : String
  numerator_list : List ℚ := []
  denominator_list : List ℚ := []
deriving DecidableEq

/-- `ResponseList` element. -/
structure ResponseListElementM where
  frequency : ℚ
  amplitude : ℚ
  phase : ℚ
deriving DecidableEq

/-- `ResponseList`. -/
structure ResponseListM where
  response_list_element_list : List ResponseListElementM := []
deriving DecidableEq

/-- `FIR` filter. -/
structure FIRM where
  symmetry : String
  numerator_coefficient_list : List ℚ := []
deriving DecidableEq

/-- `Polynomial` response. -/
structure PolynomialM where
  approximation_type : String := "MACLAURIN"
  frequency_lower_bound : ℚ := 0
  frequency_upper_bound : ℚ := 0
  approximation_lower_bound : ℚ := 0
  approximation_upper_bound : ℚ := 0
  maximum_error : ℚ := 0
  coefficient_list : List ℚ := []
deriving DecidableEq

/-- `ResponseStage`: at most one meaningful transfer description plus an
optional stage gain. -/
structure ResponseStageM where
  number : ℤ
  poles_zeros_list : List PolesZerosM := []
  coefficients_list : List CoefficientsM := []
  response_list : Option ResponseListM := none
  fir : Option FIRM := none
  polynomial : Option PolynomialM := none
  stage_gain : Option GainM := none
deriving DecidableEq

/-- `Response`: overall sensitivity, optional polynomial, ordered stages. -/
structure ResponseM where
  instrument_sensitivity : Option SensitivityM := none
  instrument_polynomial : Option PolynomialM := none
  stage_list : List ResponseStageM := []
deriving DecidableEq

/-- `Channel` (the fields the core algorithms read). -/
structure ChannelM where
  code : String
  location_code : String
  start_date : Option ℚ := none
  end_date : Option ℚ := none
  latitude : FVal
  longitude : FVal
  elevation : Option FVal := none
  depth : Option FVal := none
  azimuth : Option ℚ := none
  dip : Option ℚ := none
  sample_rate : Option ℚ := none
  response : Option ResponseM := none
deriving DecidableEq

/-- `Station` (the fields the core algorithms read). -/
structure StationM where
  code : String
  start_date : Option ℚ := none
  end_date : Option ℚ := none
  latitude : FVal
  longitude : FVal
  elevation : Option FVal := none
  description : Option String := none
  channel_list : List ChannelM := []
deriving DecidableEq

/-- `Network`. -/
structure NetworkM where
  code : String
  start_date : Option ℚ := none
  end_date : Option ℚ := none
  station_list : List StationM := []
deriving DecidableEq

/-- `FDSNStationXML` (the part the core algorithms read). -/
structure FDSNStationXMLM where
  network_list : List NetworkM := []
deriving DecidableEq

/-- `Channel.spans`. -/
def ChannelM.spans (c : ChannelM) (q : TimeQuery) : Bool :=
  BaseNode.spans c.start_date c.end_date q

/-- `Station.spans`. -/
def StationM.spans (s : StationM) (q : TimeQuery) : Bool :=
  BaseNode.spans s.start_date s.end_date q

/-- `Network.spans`. -/
def NetworkM.spans (n : NetworkM) (q : TimeQuery) : Bool :=
  BaseNode.spans n.start_date n.end_date q

/-- Epoch seconds of 2000-01-01 00:00:00 UTC. -/
def t2000 : ℚ := 946684800

/-- Epoch seconds of 2005-06-01 00:00:00 UTC. -/
def t2005jun : ℚ := 1117584000

/-- Epoch seconds of 2010-01-01 00:00:00 UTC. -/
def t2010 : ℚ := 1262304000

/-- Epoch seconds of 2012-01-01 00:00:00 UTC. -/
def t2012 : ℚ := 1325376000

/-- A channel valid over the epoch from 2000-01-01 to 2010-01-01. -/
def chEpoch : ChannelM :=
  { code := "BHZ", location_code := "",
    start_date := some t2000, end_date := some t2010,
    latitude := .fin 0, longitude := .fin 0 }

/-- Claim C3: `spans` with no time argument returns true; at an instant
`t` it returns true iff the start bound is unset or at most `t` and the
end bound is unset or at least `t`; over an interval `[a, b]` it tests
interval overlap with the validity span, not containment.  A channel
valid over 2000-01-01 to 2010-01-01 spans the instant 2005-06-01 and does
not span 2012-01-01. -/
theorem spans_characterization :
    (∀ sd ed : Option ℚ, BaseNode.spans sd ed .always = true) ∧
    (∀ (sd ed : Option ℚ) (t : ℚ),
      BaseNode.spans sd ed (.instant t) = true ↔
        ((sd = none ∨ ∃ s, sd = some s ∧ s ≤ t) ∧
         (ed = none ∨ ∃ e, ed = some e ∧ t ≤ e))) ∧
    (∀ (sd ed : Option ℚ) (a b : ℚ),
      BaseNode.spans sd ed (.interval a b) = true ↔
        ((sd = none ∨ ∃ s, sd = some s ∧ b ≥ s) ∧
         (ed = none ∨ ∃ e, ed = some e ∧ e ≥ a))) ∧
    chEpoch.spans (.instant t2005jun) = true ∧
    chEpoch.spans (.instant t2012) = false := by
  refine ⟨fun sd ed => rfl, fun sd ed t => ?_, fun sd ed a b => ?_, by decide, by decide⟩
  · cases sd <;> cases ed <;> simp [BaseNode.spans, le_refl]
  · cases sd <;> cases ed <;> simp [BaseNode.spans, le_refl]

/-- An (network, station, location) scope key. -/
abbrev NSL := String × String × String

/-- A full (network, station, location, channel) identity. -/
abbrev NSLCT := String × String × String × String

/-- The non-fatal diagnostics emitted by the core (the `logger.warn`
calls), as structured values per the spec's diagnostics design. -/
inductive Diag where
  | inconsistentRates (nsl : NSL) (codes : List String) (rates : List ℚ)
  | multiplePoleZeros (nslc : NSLCT)
  | poleZerosRecord (pz : PolesZerosM)
  | normalizationMismatch (perc computed reported : ℚ)
  | inconsistentPositions (nsl : NSL) (codes : List String)
  | usingMeanValues
deriving DecidableEq

/-- Python `str.strip()`: drop leading and trailing whitespace.  (Defined
on the character list so that it evaluates inside the kernel.) -/
def pystrip (s : String) : String :=
  ⟨((s.data.dropWhile Char.isWhitespace).reverse.dropWhile
      Char.isWhitespace).reverse⟩

/-- An optional code filter: `None` accepts everything. -/
def matchOpt (f : Option String) (v : String) : Bool :=
  match f with
  | none => true
  | some x => v == x

/-- Embeds `FDSNStationXML.iter_network_station_channels`: the matching
(network, station, channel) triples for optional code filters and a time
query.  The location filter is stripped before use, and channel location
codes are compared stripped. -/
def FDSNStationXMLM.iter_network_station_channels
    (sx : FDSNStationXMLM) (net sta loc cha : Option String)
    (q : TimeQuery) : List (NetworkM × StationM × ChannelM) :=
  let loc := loc.map pystrip
  sx.network_list.flatMap fun n =>
    if n.spans q && matchOpt net n.code then
      n.station_list.flatMap fun s =>
        if s.spans q && matchOpt sta s.code then
          s.channel_list.filterMap fun c =>
            if c.spans q && matchOpt cha c.code &&
                matchOpt loc (pystrip c.location_code) then
              some (n, s, c)
            else
              none
        else []
    else []

/-- The band-and-instrument part of a channel code, as computed inside
`get_channel_groups`: first two characters of a 3-character code, empty
for a 1-character code, the whole code otherwise. -/
def band_instrument_code (cha : String) : String :=
  if cha.length == 3 then cha.take 2
  else if cha.length == 1 then ""
  else cha

/-- The input-unit component of a bucket key, as computed inside
`get_channel_groups`: the name of the response's overall sensitivity input
units when response and sensitivity are present, `None` otherwise.  The
error case embeds the `AttributeError` raised when a sensitivity is
present but carries no input units. -/
def channelUnit (c : ChannelM) : Except PyErr (Option String) :=
  match c.response with
  | some r =>
    match r.instrument_sensitivity with
    | some s =>
      match s.input_units with
      | none => .error .attrError
      | some u => .ok (some u.name)
    | none => .ok none
  | none => .ok none

/-- Dictionary update: change the value at an existing key in place, or
append a fresh binding at the end (Python dict assignment). -/
def upsert {α β : Type} [DecidableEq α] (k : α) (f : Option β → β) :
    List (α × β) → List (α × β)
  | [] => [(k, f none)]
  | (k2, v) :: rest =>
    if k = k2 then (k2, f (some v)) :: rest else (k2, v) :: upsert k f rest

/-- Dictionary assignment `d[k] = v`. -/
def dset {α β : Type} [DecidableEq α] (k : α) (v : β)
    (d : List (α × β)) : List (α × β) :=
  upsert k (fun _ => v) d

/-- Dictionary lookup. -/
def dget {α β : Type} [DecidableEq α] (k : α) : List (α × β) → Option β
  | [] => none
  | (k2, v) :: rest => if k = k2 then some v else dget k rest

/-- A bucket key: (band-instrument code, input-unit name or `None`). -/
abbrev BicKey := String × Option String

/-- Buckets of one scope: bucket key to member channels. -/
abbrev Buckets := List (BicKey × List ChannelM)

/-- The grouping result: scope to buckets. -/
abbrev Groups := List (NSL × Buckets)

instance : DecidableEq Groups := List.hasDecEq

/-- Append a channel to its bucket, creating scope and bucket entries on
demand (the dict-filling body of the `get_channel_groups` loop). -/
def addChannel (g : Groups) (k : NSL) (bic : BicKey) (c : ChannelM) :
    Groups :=
  upsert k (fun o => upsert bic (fun o2 => (o2.getD []) ++ [c]) (o.getD [])) g

/-- The grouping pass of `get_channel_groups`: fold the matching channels
into buckets keyed by scope and (band-instrument code, unit). -/
def rawGroupsAux : List (NetworkM × StationM × ChannelM) → Groups →
    Except PyErr Groups
  | [], acc => .ok acc
  | (n, s, c) :: rest, acc => do
    let u ← channelUnit c
    rawGroupsAux rest
      (addChannel acc (n.code, s.code, pystrip c.location_code)
        (band_instrument_code c.code, u) c)

/-- The sample rates of a bucket's channels (`channel.sample_rate.value`);
a missing sample-rate object embeds as the `AttributeError` the source
would raise. -/
def ratesOf : List ChannelM → Except PyErr (List ℚ)
  | [] => .ok []
  | c :: rest =>
    match c.sample_rate with
    | none => .error .attrError
    | some r => do
      let rs ← ratesOf rest
      .ok (r :: rs)

/-- The consistency pass of `get_channel_groups` for one scope: buckets
with inconsistent sample rates are deleted and reported. -/
def checkBuckets (nsl : NSL) : Buckets →
    Except PyErr (Buckets × List Diag)
  | [] => .ok ([], [])
  | (bic, chs) :: rest => do
    let rates ← ratesOf chs
    let (keep, diags) ← checkBuckets nsl rest
    match same (rates.map PyVal.pfloat) 0 with
    | none => .error .indexError
    | some true => .ok ((bic, chs) :: keep, diags)
    | some false =>
      .ok (keep,
        Diag.inconsistentRates nsl (chs.map (·.code)) rates :: diags)

/-- The consistency pass over all scopes. -/
def checkAllGroups : Groups → Except PyErr (Groups × List Diag)
  | [] => .ok ([], [])
  | (nsl, buckets) :: rest => do
    let (b2, d1) ← checkBuckets nsl buckets
    let (r2, d2) ← checkAllGroups rest
    .ok ((nsl, b2) :: r2, d1 ++ d2)

/-- Embeds `FDSNStationXML.get_channel_groups`: group the matching
channels by scope and (band-instrument code, unit), then drop buckets
with inconsistent sample rates, reporting them. -/
def FDSNStationXMLM.get_channel_groups (sx : FDSNStationXMLM)
    (net sta loc cha : Option String) (q : TimeQuery) :
    Except PyErr (Groups × List Diag) := do
  let g ← rawGroupsAux (sx.iter_network_station_channels net sta loc cha q) []
  checkAllGroups g

/-- The unit pairing as the claim words it: the input-unit name, or the
string "unknown" when the response or its sensitivity is absent. -/
def channelUnitClaim (c : ChannelM) : Option String :=
  match c.response with
  | some r =>
    match r.instrument_sensitivity with
    | some s => s.input_units.map (·.name)
    | none => some "unknown"
  | none => some "unknown"

/-- A minimal channel at the origin with a code and a sample rate. -/
def mkChan (code : String) (rate : ℚ) : ChannelM :=
  { code := code, location_code := "",
    latitude := .fin 0, longitude := .fin 0,
    sample_rate := some rate }

/-- A station XML with one network NN, one station SS and one channel HHZ
carrying no response. -/
def sxC4 : FDSNStationXMLM :=
  { network_list := [
      { code := "NN", station_list := [
        { code := "SS", latitude := .fin 0, longitude := .fin 0,
          channel_list := [mkChan "HHZ" 100] } ] } ] }

/-- Claim C4, counterexample: a channel with no response is bucketed
under the unit component `None`, not under the string "unknown" the claim
names; the bucket keyed with "unknown" does not exist in the grouping
result. -/
theorem get_channel_groups_unit_counterexample :
    channelUnit (mkChan "HHZ" 100) = .ok none ∧
    channelUnitClaim (mkChan "HHZ" 100) = some "unknown" ∧
    sxC4.get_channel_groups none none none none .always =
      .ok ([(("NN", "SS", ""), [(("HH", none), [mkChan "HHZ" 100])])], []) ∧
    dget (("HH", some "unknown") : BicKey)
      [((("HH", none) : BicKey), [mkChan "HHZ" 100])] = none ∧
    (("HH", none) : BicKey) ≠ ("HH", some "unknown") := by
  refine ⟨rfl, rfl, by decide, rfl, by decide⟩

/-- Claim C4 as amended: the band-instrument key is the first two
characters of a 3-character code, empty for a 1-character code, and the
whole code otherwise; the key is paired with the input-unit name from the
response's overall sensitivity, or with `None` (not the string "unknown")
when the response or the sensitivity is absent; each surviving channel is
appended to the bucket of `(network code, station code, stripped location
code)` and `(band-instrument key, unit)`. -/
theorem get_channel_groups_key_amended :
    (∀ cha : String,
      (cha.length = 3 → band_instrument_code cha = cha.take 2) ∧
      (cha.length = 1 → band_instrument_code cha = "") ∧
      (cha.length ≠ 3 → cha.length ≠ 1 → band_instrument_code cha = cha)) ∧
    (∀ c : ChannelM,
      (c.response = none → channelUnit c = .ok none) ∧
      (∀ r, c.response = some r → r.instrument_sensitivity = none →
        channelUnit c = .ok none) ∧
      (∀ r s u, c.response = some r → r.instrument_sensitivity = some s →
        s.input_units = some u → channelUnit c = .ok (some u.name))) ∧
    (∀ (n : NetworkM) (s : StationM) (c : ChannelM) rest acc u,
      channelUnit c = .ok u →
      rawGroupsAux ((n, s, c) :: rest) acc =
        rawGroupsAux rest
          (addChannel acc (n.code, s.code, pystrip c.location_code)
            (band_instrument_code c.code, u) c)) := by
  refine ⟨fun cha => ⟨fun h3 => ?_, fun h1 => ?_, fun h3 h1 => ?_⟩,
    fun c => ⟨fun h => ?_, fun r h hs => ?_, fun r s u h hs hu => ?_⟩,
    fun n s c rest acc u hu => ?_⟩
  · simp [band_instrument_code, h3]
  · simp [band_instrument_code, h1]
  · simp [band_instrument_code, h3, h1]
  · simp [channelUnit, h]
  · simp [channelUnit, h, hs]
  · simp [channelUnit, h, hs, hu]
  · simp only [rawGroupsAux, hu]
    rfl

/-- The sample rates stored in a bucket's channels. -/
def bucketRates (b : BicKey × List ChannelM) : List ℚ :=
  b.2.filterMap (·.sample_rate)

/-- Does a bucket pass the sample-rate consistency check? -/
def consistentBucket (b : BicKey × List ChannelM) : Bool :=
  (same ((bucketRates b).map PyVal.pfloat) 0).getD false

theorem exceptOkBind {ε α β : Type} (a : α) (f : α → Except ε β) :
    (Except.ok a >>= f : Except ε β) = f a := rfl

theorem same_ne_none (l : List PyVal) (eps : ℚ) (h : l ≠ []) :
    same l eps ≠ none := by
  cases l with
  | nil => exact absurd rfl h
  | cons x xs => simp [same]

theorem all_abs_sub_le_zero (q0 : ℚ) (rs : List ℚ) :
    (rs.all fun q2 => decide (|q2 - q0| ≤ 0)) =
      (rs.all fun r => decide (r = q0)) := by
  induction rs with
  | nil => rfl
  | cons a tl ih =>
    simp only [List.all_cons, ih]
    congr 1
    rw [decide_eq_decide, abs_nonpos_iff, sub_eq_zero]

theorem ratesOf_eq (chs : List ChannelM)
    (h : ∀ c ∈ chs, c.sample_rate ≠ none) :
    ratesOf chs = .ok (chs.filterMap (·.sample_rate)) := by
  induction chs with
  | nil => rfl
  | cons c tl ih =>
    have hc := h c (List.mem_cons_self c tl)
    cases hr : c.sample_rate with
    | none => exact absurd hr hc
    | some r =>
      have ih2 := ih (fun c2 hc2 => h c2 (List.mem_cons_of_mem _ hc2))
      simp [ratesOf, hr, ih2, List.filterMap_cons, exceptOkBind]

theorem checkBuckets_filter (nsl : NSL) (buckets : Buckets)
    (h : ∀ b ∈ buckets, b.2 ≠ [] ∧ ∀ c ∈ b.2, c.sample_rate ≠ none) :
    ∃ ds, checkBuckets nsl buckets =
        .ok (buckets.filter consistentBucket, ds) ∧
      ∀ b ∈ buckets, consistentBucket b = false →
        Diag.inconsistentRates nsl (b.2.map (·.code)) (bucketRates b) ∈ ds := by
  induction buckets with
  | nil => exact ⟨[], rfl, by simp⟩
  | cons b rest ih =>
    have hb := h b (List.mem_cons_self b rest)
    have hrest : ∀ b2 ∈ rest, b2.2 ≠ [] ∧ ∀ c ∈ b2.2, c.sample_rate ≠ none :=
      fun b2 hb2 => h b2 (List.mem_cons_of_mem _ hb2)
    obtain ⟨ds, hck, hmem⟩ := ih hrest
    obtain ⟨bic, chs⟩ := b
    have hrates : ratesOf chs = .ok (bucketRates (bic, chs)) :=
      ratesOf_eq chs hb.2
    have hne : (bucketRates (bic, chs)).map PyVal.pfloat ≠ [] := by
      cases hch : chs with
      | nil => exact absurd hch hb.1
      | cons c tl =>
        have := hb.2 c (by rw [hch]; exact List.mem_cons_self c tl)
        cases hr : c.sample_rate with
        | none => exact absurd hr this
        | some r => simp [bucketRates, hch, List.filterMap_cons, hr]
    cases hs : same ((bucketRates (bic, chs)).map PyVal.pfloat) 0 with
    | none => exact absurd hs (same_ne_none _ _ hne)
    | some v =>
      have hcons : consistentBucket (bic, chs) = v := by
        simp [consistentBucket, hs]
      cases v with
      | true =>
        refine ⟨ds, ?_, ?_⟩
        · simp [checkBuckets, hrates, hck, hs, List.filter_cons, hcons,
            exceptOkBind]
        · intro b2 hb2 hbad
          rcases List.mem_cons.mp hb2 with rfl | hb2
          · rw [hcons] at hbad; cases hbad
          · exact hmem b2 hb2 hbad
      | false =>
        refine ⟨Diag.inconsistentRates nsl (chs.map (·.code))
            (bucketRates (bic, chs)) :: ds, ?_, ?_⟩
        · simp [checkBuckets, hrates, hck, hs, List.filter_cons, hcons,
            exceptOkBind]
        · intro b2 hb2 hbad
          rcases List.mem_cons.mp hb2 with rfl | hb2
          · exact List.mem_cons_self _ _
          · exact List.mem_cons_of_mem _ (hmem b2 hb2 hbad)

/-- The scenario-E bucket with inconsistent rates 100, 100, 50. -/
def bucketHH : BicKey × List ChannelM :=
  (("HH", none), [mkChan "HHZ" 100, mkChan "HHN" 100, mkChan "HHE" 50])

/-- The scenario-E consistent sibling bucket. -/
def bucketLH : BicKey × List ChannelM :=
  (("LH", none), [mkChan "LHZ" 1])

/-- Claim C5: sample-rate sameness is exact float equality (tolerance 0)
and a mixture of value types is always inconsistent; a bucket failing the
check is removed whole, with a diagnostic naming the member channel codes
and their rates, while the other buckets of the scope remain; a bucket
with rates 100, 100, 50 is dropped and reported, its sibling kept. -/
theorem get_channel_groups_consistency :
    (∀ (x0 : PyVal) (xs : List PyVal) (eps : ℚ) (a b : PyVal),
      a ∈ x0 :: xs → b ∈ x0 :: xs → PyVal.tagEq a b = false →
      same (x0 :: xs) eps = some false) ∧
    (∀ (r0 : ℚ) (rs : List ℚ),
      (same ((r0 :: rs).map PyVal.pfloat) 0 = some true ↔ ∀ r ∈ rs, r = r0)) ∧
    (∀ (nsl : NSL) (buckets : Buckets),
      (∀ b ∈ buckets, b.2 ≠ [] ∧ ∀ c ∈ b.2, c.sample_rate ≠ none) →
      ∃ ds, checkBuckets nsl buckets =
          .ok (buckets.filter consistentBucket, ds) ∧
        ∀ b ∈ buckets, consistentBucket b = false →
          Diag.inconsistentRates nsl (b.2.map (·.code)) (bucketRates b) ∈ ds) ∧
    checkBuckets ("NN", "SS", "") [bucketHH, bucketLH] =
      .ok ([bucketLH],
        [Diag.inconsistentRates ("NN", "SS", "") ["HHZ", "HHN", "HHE"]
          [100, 100, 50]]) := by
  refine ⟨?_, ?_, fun nsl buckets h => checkBuckets_filter nsl buckets h, by decide⟩
  · intro x0 xs eps a b ha hb hab
    have key : ∀ x y z : PyVal, PyVal.tagEq y z = false →
        PyVal.tagEq x y = false ∨ PyVal.tagEq x z = false := by
      intro x y z hf
      cases x <;> cases y <;> cases z <;> simp_all [PyVal.tagEq]
    have hany : ((x0 :: xs).any fun r => !PyVal.tagEq x0 r) = true := by
      rcases key x0 a b hab with hx | hx
      · exact List.any_eq_true.mpr ⟨a, ha, by rw [hx]; rfl⟩
      · exact List.any_eq_true.mpr ⟨b, hb, by rw [hx]; rfl⟩
    simp [same, hany]
  · intro r0 rs
    simp [same, List.any_map, List.all_map, Function.comp, PyVal.tagEq,
      all_abs_sub_le_zero, List.all_eq_true, sub_self, abs_nonpos_iff,
      sub_eq_zero]

/-- Witness for C5 at concrete inputs: a mixed-type list is inconsistent
and a singleton consistent bucket passes the filter unchanged. -/
theorem get_channel_groups_consistency_witness :
    same [PyVal.pfloat 1, PyVal.pint 1] 0 = some false ∧
    ∃ ds, checkBuckets ("NN", "SS", "") [bucketLH] =
        .ok ([bucketLH].filter consistentBucket, ds) ∧
      ∀ b ∈ [bucketLH], consistentBucket b = false →
        Diag.inconsistentRates ("NN", "SS", "") (b.2.map (·.code))
          (bucketRates b) ∈ ds :=
  ⟨get_channel_groups_consistency.1 (PyVal.pfloat 1) [PyVal.pint 1] 0
      (PyVal.pfloat 1) (PyVal.pint 1) (by decide) (by decide) (by decide),
   get_channel_groups_consistency.2.2.1 ("NN", "SS", "") [bucketLH]
      (by decide)⟩

/-- Modelled from the spec: the elementary transfer-function terms the
assembly engine produces (`trace.PoleZeroResponse`,
`trace.IntegrationResponse`, `trace.DifferentiationResponse` live in
`pyrocko/trace.py`, outside the sources under study).  Per the spec these
are a tagged union of elementary terms; a composite response
(`trace.MultiplyResponse`) is the list of its factors. -/
inductive TF where
  | poleZero (constant : Option ℚ) (zeros poles : List CQ)
  | integration (n : ℕ)
  | differentiation (n : ℕ)
deriving DecidableEq

/-- Modelled from the spec: the magnitude of a pole-zero response
(constant, zeros, poles) evaluated at a frequency — the numeric
`trace.PoleZeroResponse.evaluate` is outside the sources under study, so
the assembly engine is parametrized by it. -/
abbrev MagFun := ℚ → List CQ → List CQ → ℚ → ℚ

/-- The fixed unit-conversion table `conversion` from `station.py`, keyed
by (requested fake input units, documented input units).  The outer
`Option` embeds dictionary lookup (`none` is a `KeyError`); the inner one
is the table's own `None` for matching units. -/
def conversion : String × String → Option (Option TF)
  | ("M", "M") => some none
  | ("M/S", "M") => some (some (TF.integration 1))
  | ("M/S**2", "M") => some (some (TF.integration 2))
  | ("M", "M/S") => some (some (TF.differentiation 1))
  | ("M/S", "M/S") => some none
  | ("M/S**2", "M/S") => some (some (TF.integration 1))
  | ("M", "M/S**2") => some (some (TF.differentiation 2))
  | ("M/S", "M/S**2") => some (some (TF.differentiation 1))
  | ("M/S**2", "M/S**2") => some none
  | _ => none

/-- Embeds `PolesZeros.get_pyrocko_response`: only the Laplace
radians-per-second convention is convertible; the normalization factor is
recomputed from the assembled response's magnitude at the normalization
frequency and a diagnostic is emitted when it deviates from the declared
factor by more than 2 percent; the returned term always carries the
declared factor. -/
def PolesZerosM.get_pyrocko_response (pz : PolesZerosM) (mag : MagFun) :
    Except PyErr (TF × List Diag) :=
  if pz.pz_transfer_function_type ≠ "LAPLACE (RADIANS/SECOND)" then
    .error .noResponseInformation
  else
    let zeros := pz.zero_list.map PoleZeroM.value
    let poles := pz.pole_list.map PoleZeroM.value
    let computed_normalization_factor := pz.normalization_factor /
      mag pz.normalization_factor zeros poles pz.normalization_frequency
    let perc :=
      |computed_normalization_factor / pz.normalization_factor - 1| * 100
    .ok (TF.poleZero (some pz.normalization_factor) zeros poles,
      if perc > 2 then
        [Diag.normalizationMismatch perc computed_normalization_factor
          pz.normalization_factor]
      else [])

/-- The constant-gain term contributed by a declared stage gain
(`trace.PoleZeroResponse(constant=stage_gain.value)`). -/
def gainTerms (stage : ResponseStageM) : List TF :=
  match stage.stage_gain with
  | some g => [TF.poleZero g.value [] []]
  | none => []

/-- Embeds `ResponseStage.get_pyrocko_response`: exactly one poles/zeros
description converts to a pole-zero term; more than one is reported and
skipped; other descriptions are inert; a declared stage gain appends a
constant-gain term. -/
def ResponseStageM.get_pyrocko_response (stage : ResponseStageM)
    (nslc : NSLCT) (mag : MagFun) : Except PyErr (List TF × List Diag) :=
  match stage.poles_zeros_list with
  | [] => .ok (gainTerms stage, [])
  | [pz] => do
    let (t, ds) ← pz.get_pyrocko_response mag
    .ok (t :: gainTerms stage, ds)
  | pz1 :: pz2 :: rest =>
    .ok (gainTerms stage,
      Diag.multiplePoleZeros nslc ::
        (pz1 :: pz2 :: rest).map Diag.poleZerosRecord)

/-- The stage loop of `Response.get_pyrocko_response`: concatenate the
terms of all stages in declared order. -/
def stagesFold (stages : List ResponseStageM) (nslc : NSLCT)
    (mag : MagFun) : Except PyErr (List TF × List Diag) :=
  match stages with
  | [] => .ok ([], [])
  | st :: rest => do
    let (t1, d1) ← st.get_pyrocko_response nslc mag
    let (t2, d2) ← stagesFold rest nslc mag
    .ok (t1 ++ t2, d1 ++ d2)

/-- Embeds `Response.get_pyrocko_response`: the stage terms, plus the
requested unit-conversion handling.  A missing sensitivity under a unit
override embeds the source's unguarded `None` attribute access; a
sensitivity without input units and an unmapped unit pair raise the named
no-response error. -/
def ResponseM.get_pyrocko_response (r : ResponseM) (nslc : NSLCT)
    (mag : MagFun) (fake_input_units : Option String) :
    Except PyErr (List TF × List Diag) := do
  let (terms, diags) ← stagesFold r.stage_list nslc mag
  match fake_input_units with
  | none => .ok (terms, diags)
  | some fu =>
    match r.instrument_sensitivity with
    | none => .error .attrError
    | some sens =>
      match sens.input_units with
      | none => .error .noResponseInformation
      | some u =>
        match conversion (fu, u.name) with
        | none => .error .noResponseInformation
        | some none => .ok (terms, diags)
        | some (some t) => .ok (terms ++ [t], diags)

/-- The response-collection loop of `FDSNStationXML.get_pyrocko_response`:
convert the response of every matched channel that has one. -/
def collectResps (triples : List (NetworkM × StationM × ChannelM))
    (nslc : NSLCT) (mag : MagFun) (fake : Option String) :
    Except PyErr (List (List TF) × List Diag) :=
  match triples with
  | [] => .ok ([], [])
  | (_, _, c) :: rest =>
    match c.response with
    | none => collectResps rest nslc mag fake
    | some r => do
      let (t, d1) ← r.get_pyrocko_response nslc mag fake
      let (ts, d2) ← collectResps rest nslc mag fake
      .ok (t :: ts, d1 ++ d2)

/-- Embeds `FDSNStationXML.get_pyrocko_response`: exactly one converted
response is returned; zero raises the named no-response error, several
raise the named multiple-response error. -/
def FDSNStationXMLM.get_pyrocko_response (sx : FDSNStationXMLM)
    (nslc : NSLCT) (q : TimeQuery) (mag : MagFun) (fake : Option String) :
    Except PyErr (List TF × List Diag) := do
  let (resps, diags) ← collectResps
    (sx.iter_network_station_channels (some nslc.1) (some nslc.2.1)
      (some nslc.2.2.1) (some nslc.2.2.2) q) nslc mag fake
  match resps with
  | [] => .error .noResponseInformation
  | [r] => .ok (r, diags)
  | _ :: _ :: _ => .error .multipleResponseInformation

/-- The matched responses of an identity under a time filter: the
responses carried by the channels `iter_network_station_channels` yields
for that identity. -/
def matchedResponses (sx : FDSNStationXMLM) (nslc : NSLCT)
    (q : TimeQuery) : List ResponseM :=
  (sx.iter_network_station_channels (some nslc.1) (some nslc.2.1)
    (some nslc.2.2.1) (some nslc.2.2.2) q).filterMap (fun t => t.2.2.response)

/-- The response-collection loop expressed over the matched responses
only (channels without a response contribute nothing). -/
def collectSpec (rs : List ResponseM) (nslc : NSLCT) (mag : MagFun)
    (fake : Option String) : Except PyErr (List (List TF) × List Diag) :=
  match rs with
  | [] => .ok ([], [])
  | r :: rest => do
    let (t, d1) ← r.get_pyrocko_response nslc mag fake
    let (ts, d2) ← collectSpec rest nslc mag fake
    .ok (t :: ts, d1 ++ d2)

theorem exceptErrBind {ε α β : Type} (e : ε) (f : α → Except ε β) :
    (Except.error e >>= f : Except ε β) = .error e := rfl

/-- A concrete identity used by the scenario instances. -/
def nslc0 : NSLCT := ("NN", "SS", "", "BHZ")

/-- A trivial magnitude function (each claim about the normalization
check holds for every magnitude function; this one serves witnesses). -/
def magOne : MagFun := fun _ _ _ _ => 1

/-- The scenario-C magnitude function: the assembled response evaluates
to magnitude 0.95 at every frequency. -/
def magScn : MagFun := fun _ _ _ _ => 19/20

/-- The scenario-C poles/zeros stage: declared factor 1 at reference
frequency 1 Hz. -/
def pzScn : PolesZerosM :=
  { pz_transfer_function_type := "LAPLACE (RADIANS/SECOND)",
    normalization_factor := 1, normalization_frequency := 1 }

/-- Claim C7: for a Laplace-radians poles/zeros stage the conversion
succeeds, the returned term carries the declared normalization factor
(never the recomputed one), and the diagnostic is emitted exactly when
the recomputed factor (declared divided by the assembled magnitude at the
normalization frequency) deviates from the declared one by more than 2
percent.  With declared factor 1 and magnitude 0.95 the diagnostic
fires. -/
theorem polezeros_normalization_check :
    (∀ (pz : PolesZerosM) (mag : MagFun),
      pz.pz_transfer_function_type = "LAPLACE (RADIANS/SECOND)" →
      ∃ ds, pz.get_pyrocko_response mag =
          .ok (TF.poleZero (some pz.normalization_factor)
            (pz.zero_list.map PoleZeroM.value)
            (pz.pole_list.map PoleZeroM.value), ds) ∧
        (ds ≠ [] ↔
          |(pz.normalization_factor /
              mag pz.normalization_factor (pz.zero_list.map PoleZeroM.value)
                (pz.pole_list.map PoleZeroM.value)
                pz.normalization_frequency) /
            pz.normalization_factor - 1| * 100 > 2)) ∧
    pzScn.get_pyrocko_response magScn =
      .ok (TF.poleZero (some 1) [] [],
        [Diag.normalizationMismatch (100/19) (20/19) 1]) := by
  refine ⟨?_, by decide⟩
  intro pz mag h
  simp only [PolesZerosM.get_pyrocko_response, h, ne_eq, not_true_eq_false,
    if_false]
  refine ⟨_, rfl, ?_⟩
  split <;> simp_all

/-- Witness for C7: the general statement applied to the scenario-C
stage and magnitude. -/
theorem polezeros_normalization_check_witness :
    ∃ ds, pzScn.get_pyrocko_response magScn =
        .ok (TF.poleZero (some pzScn.normalization_factor)
          (pzScn.zero_list.map PoleZeroM.value)
          (pzScn.pole_list.map PoleZeroM.value), ds) ∧
      (ds ≠ [] ↔
        |(pzScn.normalization_factor /
            magScn pzScn.normalization_factor
              (pzScn.zero_list.map PoleZeroM.value)
              (pzScn.pole_list.map PoleZeroM.value)
              pzScn.normalization_frequency) /
          pzScn.normalization_factor - 1| * 100 > 2) :=
  polezeros_normalization_check.1 pzScn magScn rfl

/-- Claim C8: a stage with more than one poles/zeros description is
reported and contributes no pole-zero term (and raises nothing); a stage
with exactly one contributes that term; a declared scalar gain always
contributes a constant-gain term. -/
theorem response_stage_terms :
    ∀ (stage : ResponseStageM) (nslc : NSLCT) (mag : MagFun),
      (∀ pz1 pz2 rest, stage.poles_zeros_list = pz1 :: pz2 :: rest →
        stage.get_pyrocko_response nslc mag =
          .ok (gainTerms stage,
            Diag.multiplePoleZeros nslc ::
              (pz1 :: pz2 :: rest).map Diag.poleZerosRecord)) ∧
      (∀ pz t ds, stage.poles_zeros_list = [pz] →
        pz.get_pyrocko_response mag = .ok (t, ds) →
        stage.get_pyrocko_response nslc mag =
          .ok (t :: gainTerms stage, ds)) ∧
      (∀ g, stage.stage_gain = some g →
        gainTerms stage = [TF.poleZero g.value [] []]) ∧
      (∀ g terms ds, stage.stage_gain = some g →
        stage.get_pyrocko_response nslc mag = .ok (terms, ds) →
        TF.poleZero g.value [] [] ∈ terms) := by
  intro stage nslc mag
  refine ⟨?_, ?_, ?_, ?_⟩
  · intro pz1 pz2 rest hpz
    simp [ResponseStageM.get_pyrocko_response, hpz]
  · intro pz t ds hpz hok
    simp [ResponseStageM.get_pyrocko_response, hpz, hok, exceptOkBind]
  · intro g hg
    simp [gainTerms, hg]
  · intro g terms ds hg hok
    have hgt : gainTerms stage = [TF.poleZero g.value [] []] := by
      simp [gainTerms, hg]
    rcases hl : stage.poles_zeros_list with _ | ⟨pz, _ | ⟨pz2, rest⟩⟩
    · rw [ResponseStageM.get_pyrocko_response, hl] at hok
      simp only [Except.ok.injEq, Prod.mk.injEq] at hok
      rw [← hok.1, hgt]
      exact List.mem_singleton.mpr rfl
    · rw [ResponseStageM.get_pyrocko_response, hl] at hok
      dsimp only at hok
      cases hpz : pz.get_pyrocko_response mag with
      | error e => rw [hpz, exceptErrBind] at hok; cases hok
      | ok td =>
        obtain ⟨t1, ds1⟩ := td
        rw [hpz, exceptOkBind] at hok
        simp only [Except.ok.injEq, Prod.mk.injEq] at hok
        rw [← hok.1, hgt]
        exact List.mem_cons_of_mem _ (List.mem_singleton.mpr rfl)
    · rw [ResponseStageM.get_pyrocko_response, hl] at hok
      simp only [Except.ok.injEq, Prod.mk.injEq] at hok
      rw [← hok.1, hgt]
      exact List.mem_singleton.mpr rfl

/-- Witness for C8 at a concrete stage with two poles/zeros descriptions
and a gain of 2. -/
theorem response_stage_terms_witness :
    ResponseStageM.get_pyrocko_response
        { number := 1, poles_zeros_list := [pzScn, pzScn],
          stage_gain := some { value := some 2 } } nslc0 magOne =
      .ok (gainTerms
          { number := 1, poles_zeros_list := [pzScn, pzScn],
            stage_gain := some { value := some 2 } },
        Diag.multiplePoleZeros nslc0 ::
          ([pzScn, pzScn]).map Diag.poleZerosRecord) :=
  (response_stage_terms
    { number := 1, poles_zeros_list := [pzScn, pzScn],
      stage_gain := some { value := some 2 } } nslc0 magOne).1 pzScn pzScn []
    rfl

/-- A response with no instrument sensitivity and no stages. -/
def respNoSens : ResponseM := {}

/-- Claim C10: under a unit override, a response without an instrument
sensitivity fails with the unguarded attribute access, not with the named
no-response error; the named error for missing units fires only when a
sensitivity exists whose input units are unset.  (The stage conversion
is assumed to succeed, since its own failures surface first.) -/
theorem response_override_missing_sensitivity :
    ∀ (r : ResponseM) (nslc : NSLCT) (mag : MagFun) (fu : String)
      (td : List TF × List Diag),
      stagesFold r.stage_list nslc mag = .ok td →
      ((r.instrument_sensitivity = none →
        r.get_pyrocko_response nslc mag (some fu) = .error .attrError ∧
        r.get_pyrocko_response nslc mag (some fu) ≠
          .error .noResponseInformation) ∧
       (∀ s, r.instrument_sensitivity = some s → s.input_units = none →
        r.get_pyrocko_response nslc mag (some fu) =
          .error .noResponseInformation)) := by
  intro r nslc mag fu td hsf
  obtain ⟨terms, diags⟩ := td
  constructor
  · intro hsens
    have : r.get_pyrocko_response nslc mag (some fu) = .error .attrError := by
      simp [ResponseM.get_pyrocko_response, hsf, exceptOkBind, hsens]
    exact ⟨this, by rw [this]; intro hcon; cases hcon⟩
  · intro s hsens hu
    simp [ResponseM.get_pyrocko_response, hsf, exceptOkBind, hsens, hu]

/-- Witness for C10: the empty response under override "M" hits the
attribute access. -/
theorem response_override_missing_sensitivity_witness :
    respNoSens.get_pyrocko_response nslc0 magOne (some "M") =
        .error .attrError ∧
      respNoSens.get_pyrocko_response nslc0 magOne (some "M") ≠
        .error .noResponseInformation :=
  (response_override_missing_sensitivity respNoSens nslc0 magOne "M"
    ([], []) rfl).1 rfl

/-- The scenario-D response: documented input unit "M", no stages. -/
def respScnD : ResponseM :=
  { instrument_sensitivity := some { input_units := some { name := "M" } } }

/-- Claim C6: matching unit pairs have an identity table entry and append
no conversion term; a mapped pair appends exactly the table's single
integration or differentiation term; an unmapped pair raises the named
no-response error.  Requesting fake units "M/S" on a channel documented
in "M" with no other stages yields exactly one integration term of
order 1. -/
theorem response_unit_conversion :
    (conversion ("M", "M") = some none ∧
     conversion ("M/S", "M/S") = some none ∧
     conversion ("M/S**2", "M/S**2") = some none) ∧
    (∀ (r : ResponseM) (nslc : NSLCT) (mag : MagFun) (fu : String)
       (sens : SensitivityM) (u : UnitsM),
      r.instrument_sensitivity = some sens → sens.input_units = some u →
      (conversion (fu, u.name) = some none →
        r.get_pyrocko_response nslc mag (some fu) =
          r.get_pyrocko_response nslc mag none) ∧
      (∀ t, conversion (fu, u.name) = some (some t) →
        r.get_pyrocko_response nslc mag (some fu) =
          (r.get_pyrocko_response nslc mag none).map
            (fun p => (p.1 ++ [t], p.2))) ∧
      (∀ td, conversion (fu, u.name) = none →
        stagesFold r.stage_list nslc mag = .ok td →
        r.get_pyrocko_response nslc mag (some fu) =
          .error .noResponseInformation)) ∧
    respScnD.get_pyrocko_response nslc0 magOne (some "M/S") =
      .ok ([TF.integration 1], []) := by
  refine ⟨⟨rfl, rfl, rfl⟩, ?_, by decide⟩
  intro r nslc mag fu sens u hsens hu
  refine ⟨?_, ?_, ?_⟩
  · intro hconv
    cases hsf : stagesFold r.stage_list nslc mag with
    | error e =>
      simp [ResponseM.get_pyrocko_response, hsf, exceptErrBind]
    | ok td =>
      obtain ⟨terms, diags⟩ := td
      simp [ResponseM.get_pyrocko_response, hsf, exceptOkBind, hsens, hu,
        hconv]
  · intro t hconv
    cases hsf : stagesFold r.stage_list nslc mag with
    | error e =>
      simp [ResponseM.get_pyrocko_response, hsf, exceptErrBind, Except.map]
    | ok td =>
      obtain ⟨terms, diags⟩ := td
      simp [ResponseM.get_pyrocko_response, hsf, exceptOkBind, hsens, hu,
        hconv, Except.map]
  · intro td hconv hsf
    obtain ⟨terms, diags⟩ := td
    simp [ResponseM.get_pyrocko_response, hsf, exceptOkBind, hsens, hu,
      hconv]

/-- Witness for C6: override "M" on a response documented in "M" changes
nothing. -/
theorem response_unit_conversion_witness :
    respScnD.get_pyrocko_response nslc0 magOne (some "M") =
      respScnD.get_pyrocko_response nslc0 magOne none :=
  ((response_unit_conversion.2.1 respScnD nslc0 magOne "M"
    { input_units := some { name := "M" } } { name := "M" } rfl rfl).1) rfl

theorem collect_eq_spec (triples : List (NetworkM × StationM × ChannelM))
    (nslc : NSLCT) (mag : MagFun) (fake : Option String) :
    collectResps triples nslc mag fake =
      collectSpec (triples.filterMap (fun t => t.2.2.response)) nslc mag
        fake := by
  induction triples with
  | nil => rfl
  | cons t rest ih =>
    obtain ⟨n, s, c⟩ := t
    cases hres : c.response with
    | none => simp [collectResps, collectSpec, hres, List.filterMap_cons, ih]
    | some r => simp [collectResps, collectSpec, hres, List.filterMap_cons, ih]

theorem pz_err (pz : PolesZerosM) (mag : MagFun) (e : PyErr)
    (h : pz.get_pyrocko_response mag = .error e) :
    e = .noResponseInformation := by
  rw [PolesZerosM.get_pyrocko_response] at h
  split at h
  · injection h with h2
    exact h2.symm
  · cases h

theorem stage_err (stage : ResponseStageM) (nslc : NSLCT) (mag : MagFun)
    (e : PyErr) (h : stage.get_pyrocko_response nslc mag = .error e) :
    e = .noResponseInformation := by
  rw [ResponseStageM.get_pyrocko_response] at h
  rcases hl : stage.poles_zeros_list with _ | ⟨pz, _ | ⟨pz2, rest⟩⟩ <;>
    rw [hl] at h <;> dsimp only at h
  · cases h
  · cases hpz : pz.get_pyrocko_response mag with
    | error e2 =>
      rw [hpz, exceptErrBind] at h
      injection h with h2
      rw [← h2]
      exact pz_err pz mag e2 hpz
    | ok td =>
      obtain ⟨t, ds⟩ := td
      rw [hpz, exceptOkBind] at h
      cases h
  · cases h

theorem stages_err (stages : List ResponseStageM) (nslc : NSLCT)
    (mag : MagFun) (e : PyErr)
    (h : stagesFold stages nslc mag = .error e) :
    e = .noResponseInformation := by
  induction stages with
  | nil => cases h
  | cons st rest ih =>
    rw [stagesFold] at h
    cases hst : st.get_pyrocko_response nslc mag with
    | error e2 =>
      rw [hst, exceptErrBind] at h
      injection h with h2
      rw [← h2]
      exact stage_err st nslc mag e2 hst
    | ok td =>
      obtain ⟨t1, d1⟩ := td
      rw [hst, exceptOkBind] at h
      dsimp only at h
      cases hr : stagesFold rest nslc mag with
      | error e2 =>
        rw [hr, exceptErrBind] at h
        injection h with h2
        rw [h2] at hr
        exact ih hr
      | ok td2 =>
        obtain ⟨t2, d2⟩ := td2
        rw [hr, exceptOkBind] at h
        cases h

theorem resp_err (r : ResponseM) (nslc : NSLCT) (mag : MagFun)
    (fake : Option String) (e : PyErr)
    (h : r.get_pyrocko_response nslc mag fake = .error e) :
    e = .noResponseInformation ∨
      (e = .attrError ∧ r.instrument_sensitivity = none ∧ fake ≠ none) := by
  rw [ResponseM.get_pyrocko_response] at h
  cases hsf : stagesFold r.stage_list nslc mag with
  | error e2 =>
    rw [hsf, exceptErrBind] at h
    injection h with h2
    rw [← h2]
    exact Or.inl (stages_err r.stage_list nslc mag e2 hsf)
  | ok td =>
    obtain ⟨terms, diags⟩ := td
    rw [hsf, exceptOkBind] at h
    dsimp only at h
    cases fake with
    | none => cases h
    | some fu =>
      cases hsens : r.instrument_sensitivity with
      | none =>
        rw [hsens] at h
        injection h with h2
        exact Or.inr ⟨h2.symm, rfl, by simp⟩
      | some sens =>
        rw [hsens] at h
        dsimp only at h
        cases hu : sens.input_units with
        | none =>
          rw [hu] at h
          injection h with h2
          exact Or.inl h2.symm
        | some u =>
          rw [hu] at h
          dsimp only at h
          cases hc : conversion (fu, u.name) with
          | none =>
            rw [hc] at h
            injection h with h2
            exact Or.inl h2.symm
          | some o =>
            rw [hc] at h
            cases o <;> dsimp only at h <;> cases h

theorem collect_err (rs : List ResponseM) (nslc : NSLCT) (mag : MagFun)
    (fake : Option String) (e : PyErr)
    (h : collectSpec rs nslc mag fake = .error e) :
    ∃ r ∈ rs, r.get_pyrocko_response nslc mag fake = .error e := by
  induction rs with
  | nil => cases h
  | cons r rest ih =>
    rw [collectSpec] at h
    cases hr : r.get_pyrocko_response nslc mag fake with
    | error e2 =>
      rw [hr, exceptErrBind] at h
      injection h with h2
      exact ⟨r, List.mem_cons_self r rest, by rw [hr, h2]⟩
    | ok td =>
      obtain ⟨t, d1⟩ := td
      rw [hr, exceptOkBind] at h
      dsimp only at h
      cases hrest : collectSpec rest nslc mag fake with
      | error e2 =>
        rw [hrest, exceptErrBind] at h
        injection h with h2
        obtain ⟨r2, hmem, herr⟩ := ih (by rw [hrest, h2])
        exact ⟨r2, List.mem_cons_of_mem _ hmem, herr⟩
      | ok td2 =>
        obtain ⟨ts, d2⟩ := td2
        rw [hrest, exceptOkBind] at h
        cases h

theorem collect_len (rs : List ResponseM) (nslc : NSLCT) (mag : MagFun)
    (fake : Option String) (ts : List (List TF)) (ds : List Diag)
    (h : collectSpec rs nslc mag fake = .ok (ts, ds)) :
    ts.length = rs.length := by
  induction rs generalizing ts ds with
  | nil =>
    rw [collectSpec] at h
    injection h with h2
    cases h2
    rfl
  | cons r rest ih =>
    rw [collectSpec] at h
    cases hr : r.get_pyrocko_response nslc mag fake with
    | error e2 => rw [hr, exceptErrBind] at h; cases h
    | ok td =>
      obtain ⟨t, d1⟩ := td
      rw [hr, exceptOkBind] at h
      dsimp only at h
      cases hrest : collectSpec rest nslc mag fake with
      | error e2 => rw [hrest, exceptErrBind] at h; cases h
      | ok td2 =>
        obtain ⟨ts2, d2⟩ := td2
        rw [hrest, exceptOkBind] at h
        injection h with h2
        cases h2
        simp [ih ts2 d2 hrest]

theorem collect_all_ok (rs : List ResponseM) (nslc : NSLCT) (mag : MagFun)
    (fake : Option String)
    (h : ∀ r ∈ rs, ∃ w, r.get_pyrocko_response nslc mag fake = .ok w) :
    ∃ ts ds, collectSpec rs nslc mag fake = .ok (ts, ds) := by
  induction rs with
  | nil => exact ⟨[], [], rfl⟩
  | cons r rest ih =>
    obtain ⟨⟨t, d1⟩, hr⟩ := h r (List.mem_cons_self r rest)
    obtain ⟨ts, ds, hrest⟩ :=
      ih (fun r2 hr2 => h r2 (List.mem_cons_of_mem _ hr2))
    refine ⟨t :: ts, d1 ++ ds, ?_⟩
    rw [collectSpec, hr, exceptOkBind]
    dsimp only
    rw [hrest, exceptOkBind]

/-- A station XML whose single matching channel has a response with no
instrument sensitivity and no stages. -/
def sxNoSens : FDSNStationXMLM :=
  { network_list := [
      { code := "NN", station_list := [
        { code := "SS", latitude := .fin 0, longitude := .fin 0,
          channel_list := [
            { code := "BHZ", location_code := "",
              latitude := .fin 0, longitude := .fin 0,
              response := some respNoSens } ] } ] } ] }

/-- Claim C2, counterexample: with a unit override and a matched Response
lacking an instrument sensitivity, the lookup ends in the unguarded
attribute-access failure — an outcome distinct from the single-response
success and from both named errors, refuting the three-outcome totality
as stated. -/
theorem get_pyrocko_response_outcomes_counterexample :
    sxNoSens.get_pyrocko_response nslc0 .always magOne (some "M") =
      .error .attrError ∧
    (Except.error PyErr.attrError : Except PyErr (List TF × List Diag)) ≠
      .error .noResponseInformation ∧
    (Except.error PyErr.attrError : Except PyErr (List TF × List Diag)) ≠
      .error .multipleResponseInformation ∧
    (sxNoSens.get_pyrocko_response nslc0 .always magOne
      (some "M")).toOption = none := by
  refine ⟨by decide, by decide, by decide, by decide⟩

/-- Claim C2 as amended: provided that, whenever a unit override is
requested, every matched Response carries an instrument sensitivity, the
lookup has exactly one of the three outcomes: a single composite response,
the named no-response error, or the named multiple-response error.  Zero
matched Responses give the no-response error; exactly one matched
Response yields its composite (or surfaces its conversion error, the
named no-response error in particular for a non-Laplace-radians
poles/zeros convention); more than one matched Response is never silently
resolved to a success and, when every conversion succeeds, raises the
named multiple-response error. -/
theorem get_pyrocko_response_outcomes :
    ∀ (sx : FDSNStationXMLM) (nslc : NSLCT) (q : TimeQuery) (mag : MagFun)
      (fake : Option String),
      (fake = none ∨
        ∀ r ∈ matchedResponses sx nslc q, r.instrument_sensitivity ≠ none) →
      ((∃ v, sx.get_pyrocko_response nslc q mag fake = .ok v) ∨
        sx.get_pyrocko_response nslc q mag fake =
          .error .noResponseInformation ∨
        sx.get_pyrocko_response nslc q mag fake =
          .error .multipleResponseInformation) ∧
      (matchedResponses sx nslc q = [] →
        sx.get_pyrocko_response nslc q mag fake =
          .error .noResponseInformation) ∧
      (∀ r t ds, matchedResponses sx nslc q = [r] →
        r.get_pyrocko_response nslc mag fake = .ok (t, ds) →
        sx.get_pyrocko_response nslc q mag fake = .ok (t, ds)) ∧
      (∀ r e, matchedResponses sx nslc q = [r] →
        r.get_pyrocko_response nslc mag fake = .error e →
        sx.get_pyrocko_response nslc q mag fake = .error e) ∧
      (1 < (matchedResponses sx nslc q).length →
        (∀ v, sx.get_pyrocko_response nslc q mag fake ≠ .ok v) ∧
        ((∀ r ∈ matchedResponses sx nslc q,
            ∃ w, r.get_pyrocko_response nslc mag fake = .ok w) →
          sx.get_pyrocko_response nslc q mag fake =
            .error .multipleResponseInformation)) ∧
      (∀ (pz : PolesZerosM) (mag2 : MagFun),
        pz.pz_transfer_function_type ≠ "LAPLACE (RADIANS/SECOND)" →
        pz.get_pyrocko_response mag2 = .error .noResponseInformation) := by
  intro sx nslc q mag fake hH
  have hfd : sx.get_pyrocko_response nslc q mag fake =
      (collectSpec (matchedResponses sx nslc q) nslc mag fake >>= fun rd =>
        match rd.1 with
        | [] => .error .noResponseInformation
        | [r] => .ok (r, rd.2)
        | _ :: _ :: _ => .error .multipleResponseInformation) := by
    rw [FDSNStationXMLM.get_pyrocko_response, collect_eq_spec]
    rfl
  refine ⟨?_, ?_, ?_, ?_, ?_, ?_⟩
  · rw [hfd]
    cases hcs : collectSpec (matchedResponses sx nslc q) nslc mag fake with
    | error e =>
      rw [exceptErrBind]
      obtain ⟨r, hmem, herr⟩ := collect_err _ _ _ _ _ hcs
      rcases resp_err r nslc mag fake e herr with he | ⟨he, hsens, hfake⟩
      · rw [he]
        exact Or.inr (Or.inl rfl)
      · rcases hH with hfn | hsens2
        · exact absurd hfn hfake
        · exact absurd hsens (hsens2 r hmem)
    | ok rd =>
      rw [exceptOkBind]
      obtain ⟨resps, diags⟩ := rd
      rcases resps with _ | ⟨t, _ | ⟨t2, more⟩⟩
      · exact Or.inr (Or.inl rfl)
      · exact Or.inl ⟨(t, diags), rfl⟩
      · exact Or.inr (Or.inr rfl)
  · intro hempty
    rw [hfd, hempty]
    rfl
  · intro r t ds hone hok
    rw [hfd, hone, collectSpec, hok, exceptOkBind]
    dsimp only
    rw [collectSpec, exceptOkBind]
    simp [exceptOkBind]
  · intro r e hone herr
    rw [hfd, hone, collectSpec, herr, exceptErrBind, exceptErrBind]
  · intro hlen
    constructor
    · intro v
      rw [hfd]
      cases hcs : collectSpec (matchedResponses sx nslc q) nslc mag fake with
      | error e =>
        rw [exceptErrBind]
        intro hcon
        cases hcon
      | ok rd =>
        rw [exceptOkBind]
        obtain ⟨resps, diags⟩ := rd
        have hl : resps.length = (matchedResponses sx nslc q).length :=
          collect_len _ _ _ _ _ _ hcs
        rcases resps with _ | ⟨t, _ | ⟨t2, more⟩⟩
        · intro hcon; cases hcon
        · rw [← hl] at hlen
          exact absurd hlen (by simp)
        · intro hcon; cases hcon
    · intro hallok
      obtain ⟨ts, ds, hcs⟩ := collect_all_ok _ _ _ _ hallok
      rw [hfd, hcs, exceptOkBind]
      have hl : ts.length = (matchedResponses sx nslc q).length :=
        collect_len _ _ _ _ _ _ hcs
      rcases ts with _ | ⟨t, _ | ⟨t2, more⟩⟩
      · rw [← hl] at hlen
        exact absurd hlen (by simp)
      · rw [← hl] at hlen
        exact absurd hlen (by simp)
      · rfl
  · intro pz mag2 hpz
    rw [PolesZerosM.get_pyrocko_response, if_pos hpz]

/-- Witness for C2: the trichotomy at a concrete input with no unit
override. -/
theorem get_pyrocko_response_outcomes_witness :
    (∃ v, sxNoSens.get_pyrocko_response nslc0 .always magOne none =
      .ok v) ∨
    sxNoSens.get_pyrocko_response nslc0 .always magOne none =
      .error .noResponseInformation ∨
    sxNoSens.get_pyrocko_response nslc0 .always magOne none =
      .error .multipleResponseInformation :=
  (get_pyrocko_response_outcomes sxNoSens nslc0 .always magOne none
    (Or.inl rfl)).1

/-- The `inconsistencies` policy of `pyrocko_station_from_channels`. -/
inductive Inconsistencies where
  | warn : Inconsistencies
  | raiseExc : Inconsistencies
deriving DecidableEq

/-- Modelled from the spec: the channel record of the produced station
(`pyrocko.model.Channel` is outside the sources under study). -/
structure PChannelM where
  name : String
  azimuth : Option ℚ
  dip : Option ℚ
deriving DecidableEq

/-- Modelled from the spec: the produced station record
(`pyrocko.model.Station` is outside the sources under study). -/
structure PStationM where
  network : String
  station : String
  location : String
  lat : FVal
  lon : FVal
  elevation : FVal
  depth : FVal
  channels : List PChannelM
deriving DecidableEq

/-- `Channel.position_values`: (lat, lon, elevation or None, depth or
None). -/
def ChannelM.position_values (c : ChannelM) :
    FVal × FVal × Option FVal × Option FVal :=
  (c.latitude, c.longitude, c.elevation, c.depth)

/-- Python `==` on optional floats: `None == None` is true, `None`
differs from every float, NaN differs from everything. -/
def optFeq : Option FVal → Option FVal → Bool
  | none, none => true
  | some a, some b => a.feq b
  | _, _ => false

/-- Python tuple equality on position tuples. -/
def posEq (p q : FVal × FVal × Option FVal × Option FVal) : Bool :=
  p.1.feq q.1 && p.2.1.feq q.2.1 && optFeq p.2.2.1 q.2.2.1 &&
    optFeq p.2.2.2 q.2.2.2

/-- The `all(pos == x.position_values for x in channels)` check.  In the
source the head channel is compared against its own attribute objects, a
comparison Python short-circuits to true by identity even for NaN, so
only the remaining channels constrain the result. -/
def positionsConsistent : List ChannelM → Bool
  | [] => true
  | c0 :: rest =>
    rest.all (fun c => posEq c0.position_values c.position_values)

/-- The latitude column of the position array. -/
def latValues (channels : List ChannelM) : List FVal :=
  channels.map (·.latitude)

/-- The longitude column of the position array. -/
def lonValues (channels : List ChannelM) : List FVal :=
  channels.map (·.longitude)

/-- The elevation column of the position array (`None` becomes NaN under
`num.array(..., dtype=num.float)`). -/
def elevValues (channels : List ChannelM) : List FVal :=
  channels.map (fun c => c.elevation.getD .nan)

/-- The depth column of the position array. -/
def depthValues (channels : List ChannelM) : List FVal :=
  channels.map (fun c => c.depth.getD .nan)

/-- `num.nansum`: sum with NaN entries treated as zero.  Infinite entries
are not ignored: they propagate into the sum. -/
def nansum (vs : List FVal) : FVal :=
  vs.foldl (fun (acc : FVal) v => acc.fadd (if v.isNan then .fin 0 else v))
    (FVal.fin 0)

/-- `num.sum(num.isfinite(...))`: the number of finite entries. -/
def countFinite (vs : List FVal) : ℕ :=
  (vs.filter FVal.isFinite).length

/-- The per-column average the source computes:
`num.nansum(apos, axis=0) / num.sum(num.isfinite(apos), axis=0)`. -/
def nanAwareMean (vs : List FVal) : FVal :=
  (nansum vs).divNat (countFinite vs)

/-- The average as the claim words it: the sum of the finite values
divided by the count of the finite values (non-finite components ignored
entirely). -/
def meanFiniteClaim (vs : List FVal) : FVal :=
  (FVal.fin (vs.filterMap (fun v =>
    match v with
    | .fin q => some q
    | _ => none)).sum).divNat (countFinite vs)

/-- The station record built from a channel group's averages. -/
def builtStation (nsl : NSL) (channels : List ChannelM) : PStationM :=
  { network := nsl.1, station := nsl.2.1, location := nsl.2.2,
    lat := nanAwareMean (latValues channels),
    lon := nanAwareMean (lonValues channels),
    elevation := nanAwareMean (elevValues channels),
    depth := nanAwareMean (depthValues channels),
    channels := channels.map (fun c => ⟨c.code, c.azimuth, c.dip⟩) }

/-- Embeds `pyrocko_station_from_channels`: under the `raise` policy,
disagreeing positions raise `InconsistentChannelLocations`; otherwise the
station is built from the per-column NaN-aware averages, with a
diagnostic pair exactly when the channels disagree. -/
def pyrocko_station_from_channels (nsl : NSL) (channels : List ChannelM)
    (inconsistencies : Inconsistencies) :
    Except PyErr (PStationM × List Diag) :=
  match channels with
  | [] => .error .indexError
  | c0 :: rest =>
    if positionsConsistent (c0 :: rest) = false ∧
        inconsistencies = .raiseExc then
      .error .inconsistentChannelLocations
    else
      .ok (builtStation nsl (c0 :: rest),
        if positionsConsistent (c0 :: rest) then []
        else [Diag.inconsistentPositions nsl ((c0 :: rest).map (·.code)),
          Diag.usingMeanValues])

/-- A channel at latitude 1. -/
def chLat1 : ChannelM :=
  { code := "BHZ", location_code := "", latitude := .fin 1,
    longitude := .fin 0 }

/-- A channel at latitude plus-infinity. -/
def chLatInf : ChannelM :=
  { code := "BHN", location_code := "", latitude := .pinf,
    longitude := .fin 0 }

/-- Claim C9, counterexample: with latitudes 1 and +inf under the `warn`
policy, the produced latitude is +inf — the infinite component propagates
into the `nansum` numerator — while the claimed sum-of-finite over
count-of-finite average would be 1. -/
theorem pyrocko_station_nonfinite_counterexample :
    (pyrocko_station_from_channels ("NN", "SS", "") [chLat1, chLatInf]
        .warn).map (fun p => p.1.lat) = .ok FVal.pinf ∧
    nanAwareMean (latValues [chLat1, chLatInf]) = FVal.pinf ∧
    meanFiniteClaim (latValues [chLat1, chLatInf]) = FVal.fin 1 ∧
    FVal.pinf ≠ FVal.fin 1 := by
  refine ⟨by decide, by decide, by decide, by decide⟩

theorem nansum_no_inf (vs : List FVal)
    (h : ∀ v ∈ vs, v ≠ .pinf ∧ v ≠ .ninf) (q : ℚ) :
    vs.foldl (fun (acc : FVal) v =>
        acc.fadd (if v.isNan then .fin 0 else v)) (FVal.fin q) =
      .fin (q + (vs.filterMap (fun v =>
        match v with
        | .fin r => some r
        | _ => none)).sum) := by
  induction vs generalizing q with
  | nil => simp
  | cons v tl ih =>
    have hv := h v (List.mem_cons_self v tl)
    have htl := fun v2 hv2 => h v2 (List.mem_cons_of_mem _ hv2)
    cases v with
    | fin r =>
      have hstep : (FVal.fin q).fadd
          (if (FVal.fin r).isNan then FVal.fin 0 else FVal.fin r) =
            FVal.fin (q + r) := rfl
      rw [List.foldl_cons, hstep, ih htl, List.filterMap_cons]
      dsimp only
      rw [List.sum_cons, ← add_assoc]
    | pinf => exact absurd rfl hv.1
    | ninf => exact absurd rfl hv.2
    | nan =>
      have hstep : (FVal.fin q).fadd
          (if FVal.nan.isNan then FVal.fin 0 else FVal.nan) =
            FVal.fin (q + 0) := rfl
      rw [List.foldl_cons, hstep, ih htl, List.filterMap_cons]
      dsimp only
      rw [add_zero]

/-- Claim C9 as amended: under the `raise` policy disagreeing positions
raise the named exception and no station is produced; agreeing channels
produce a station with no diagnostic; under `warn` the station is always
produced, each of latitude, longitude, elevation and depth being the
NaN-ignoring sum of the column divided by the count of its finite
entries — which equals the claimed sum-of-finite over count-of-finite
exactly when no entry is infinite (infinite entries propagate into the
numerator). -/
theorem pyrocko_station_positions_amended :
    (∀ (nsl : NSL) (channels : List ChannelM), channels ≠ [] →
      (positionsConsistent channels = false →
        pyrocko_station_from_channels nsl channels .raiseExc =
          .error .inconsistentChannelLocations) ∧
      (positionsConsistent channels = true →
        ∀ pol, ∃ st,
          pyrocko_station_from_channels nsl channels pol = .ok (st, [])) ∧
      (∃ st ds,
        pyrocko_station_from_channels nsl channels .warn = .ok (st, ds) ∧
        st.lat = nanAwareMean (latValues channels) ∧
        st.lon = nanAwareMean (lonValues channels) ∧
        st.elevation = nanAwareMean (elevValues channels) ∧
        st.depth = nanAwareMean (depthValues channels) ∧
        (positionsConsistent channels = true → ds = []) ∧
        (positionsConsistent channels = false → ds ≠ []))) ∧
    (∀ vs : List FVal, (∀ v ∈ vs, v ≠ .pinf ∧ v ≠ .ninf) →
      nanAwareMean vs = meanFiniteClaim vs) := by
  constructor
  · intro nsl channels hne
    obtain ⟨c0, rest, rfl⟩ :=
      List.exists_cons_of_ne_nil hne
    refine ⟨?_, ?_, ?_⟩
    · intro hbad
      rw [pyrocko_station_from_channels, if_pos ⟨hbad, rfl⟩]
    · intro hgood pol
      refine ⟨builtStation nsl (c0 :: rest), ?_⟩
      rw [pyrocko_station_from_channels,
        if_neg (by simp [hgood]), if_pos hgood]
    · cases hc : positionsConsistent (c0 :: rest) with
      | true =>
        refine ⟨builtStation nsl (c0 :: rest), [], ?_, rfl, rfl, rfl, rfl,
          fun _ => rfl, ?_⟩
        · rw [pyrocko_station_from_channels, if_neg (by simp [hc]),
            if_pos hc]
        · intro hcon
          exact Bool.noConfusion hcon
      | false =>
        refine ⟨builtStation nsl (c0 :: rest),
          [Diag.inconsistentPositions nsl ((c0 :: rest).map (·.code)),
            Diag.usingMeanValues], ?_, rfl, rfl, rfl, rfl, ?_,
          fun _ => by simp⟩
        · rw [pyrocko_station_from_channels, if_neg (by simp [hc]), hc]
          simp
        · intro hcon
          exact Bool.noConfusion hcon
  · intro vs h
    rw [nanAwareMean, meanFiniteClaim, nansum, nansum_no_inf vs h 0,
      zero_add]

/-- Witness for C9: the raise policy fails on disagreeing latitudes; a
single channel is consistent and yields a diagnostic-free station; an
infinity-free column satisfies the sum-of-finite characterization. -/
theorem pyrocko_station_positions_amended_witness :
    pyrocko_station_from_channels ("NN", "SS", "") [chLat1, chLatInf]
        .raiseExc = .error .inconsistentChannelLocations ∧
    (∃ st, pyrocko_station_from_channels ("NN", "SS", "") [chLat1] .warn =
      .ok (st, [])) ∧
    nanAwareMean [FVal.fin 1, FVal.fin 2, FVal.nan] =
      meanFiniteClaim [FVal.fin 1, FVal.fin 2, FVal.nan] :=
  ⟨(pyrocko_station_positions_amended.1 ("NN", "SS", "")
      [chLat1, chLatInf] (by decide)).1 (by decide),
   (pyrocko_station_positions_amended.1 ("NN", "SS", "")
      [chLat1] (by decide)).2.1 (by decide) .warn,
   pyrocko_station_positions_amended.2 [FVal.fin 1, FVal.fin 2, FVal.nan]
      (by decide)⟩

/-- The composite sort key of `choose_channels`: (negative member count,
band-code priority, sample rate — negated when no target rate is given,
unit priority, instrument-code priority, bucket key). -/
abbrev SortKey := ℤ × ℕ × ℚ × ℕ × ℕ × BicKey

/-- Python-2 ordering on bucket keys: strings lexicographically, `None`
before any string in the unit component. -/
def bicLt (a b : BicKey) : Bool :=
  (compare a.1 b.1 == .lt) ||
    (a.1 == b.1 &&
      (match a.2, b.2 with
       | none, some _ => true
       | some x, some y => compare x y == .lt
       | _, _ => false))

/-- Lexicographic strict order on composite sort keys (Python tuple
comparison). -/
def keyLt (a b : SortKey) : Bool :=
  if a.1 ≠ b.1 then decide (a.1 < b.1)
  else if a.2.1 ≠ b.2.1 then decide (a.2.1 < b.2.1)
  else if a.2.2.1 ≠ b.2.2.1 then decide (a.2.2.1 < b.2.2.1)
  else if a.2.2.2.1 ≠ b.2.2.2.1 then decide (a.2.2.2.1 < b.2.2.2.1)
  else if a.2.2.2.2.1 ≠ b.2.2.2.2.1 then decide (a.2.2.2.2.1 < b.2.2.2.2.1)
  else bicLt a.2.2.2.2.2 b.2.2.2.2.2

/-- Reflexive closure of `keyLt`. -/
def keyLe (a b : SortKey) : Bool := keyLt a b || a == b

/-- Ordering of tagged buckets by their composite key. -/
def pairKeyLe (a b : SortKey × List ChannelM) : Bool := keyLe a.1 b.1

/-- Stable insertion into a sorted list. -/
def insortBy {α : Type} (le : α → α → Bool) (a : α) : List α → List α
  | [] => [a]
  | b :: rest => if le a b then a :: b :: rest else b :: insortBy le a rest

/-- Stable insertion sort; on the all-distinct composite keys produced
below its result is the unique sorted permutation, hence agrees with the
source's `list.sort()`. -/
def isortBy {α : Type} (le : α → α → Bool) : List α → List α
  | [] => []
  | a :: rest => insortBy le a (isortBy le rest)

/-- The unit-priority index: `priority_units.index(unit)` with the
`ValueError` fallback to the list length (also taken when the unit is
`None`). -/
def unitPrio (priority_units : List String) (u : Option String) : ℕ :=
  match u with
  | none => priority_units.length
  | some s => priority_units.indexOf s

/-- The (band, instrument) priority indices of a channel code: computed
from the first and second characters of a 3-character code with the
list-length fallback, and both equal to the fallback for other
lengths. -/
def channelPrios (priority_band_code priority_instrument_code : List String)
    (code : String) : ℕ × ℕ :=
  if code.length == 3 then
    (priority_band_code.indexOf (code.take 1),
     priority_instrument_code.indexOf ((code.drop 1).take 1))
  else (priority_band_code.length, priority_instrument_code.length)

/-- The `useful_bics` accumulation loop of `choose_channels`: buckets
whose rate is strictly below `target * 0.99999` are skipped, the others
are tagged with their composite sort key.  The error cases embed the
subscript of an empty bucket and the attribute access on a missing
sample rate. -/
def buildUseful (target_sample_rate : Option ℚ)
    (priority_band_code priority_units priority_instrument_code :
      List String) :
    Buckets → Except PyErr (List (SortKey × List ChannelM))
  | [] => .ok []
  | (bic, chs) :: rest =>
    match chs with
    | [] => .error .indexError
    | c0 :: _ =>
      match c0.sample_rate with
      | none => .error .attrError
      | some rate => do
        let rest2 ← buildUseful target_sample_rate priority_band_code
          priority_units priority_instrument_code rest
        if (match target_sample_rate with
            | some t => decide (rate < t * (99999/100000))
            | none => false) then
          .ok rest2
        else
          .ok (((-(chs.length : ℤ),
            (channelPrios priority_band_code priority_instrument_code
              c0.code).1,
            (match target_sample_rate with
             | none => -rate
             | some _ => rate),
            unitPrio priority_units bic.2,
            (channelPrios priority_band_code priority_instrument_code
              c0.code).2,
            bic), chs) :: rest2)

/-- The selection loop over the ranked buckets: the member channels of
the first bucket with a nonempty member list are entered, then the loop
breaks. -/
def pickFirst : List (SortKey × List ChannelM) → List (String × ChannelM)
  | [] => []
  | (_, chs) :: rest =>
    match chs with
    | [] => pickFirst rest
    | _ :: _ => chs.map (fun c => (c.code, c))

/-- One scope of the `choose_channels` body: build the tagged bucket
list, rank it ascending, select the first bucket's members. -/
def chooseScope (target_sample_rate : Option ℚ)
    (priority_band_code priority_units priority_instrument_code :
      List String) (buckets : Buckets) :
    Except PyErr (List (String × ChannelM)) := do
  let useful ← buildUseful target_sample_rate priority_band_code
    priority_units priority_instrument_code buckets
  .ok (pickFirst (isortBy pairKeyLe useful))

/-- The result mapping of `choose_channels`. -/
abbrev NSLCMap := List (NSLCT × ChannelM)

instance : DecidableEq NSLCMap := List.hasDecEq

/-- Enter one scope's selected channels into the result mapping under
(network, station, location, channel code). -/
def scopeInsert (nsl : NSL) (entries : List (String × ChannelM))
    (m : NSLCMap) : NSLCMap :=
  entries.foldl (fun m2 e => dset (nsl.1, nsl.2.1, nsl.2.2, e.1) e.2 m2) m

/-- The scope loop of `choose_channels`. -/
def chooseFromGroupsAux (target_sample_rate : Option ℚ)
    (priority_band_code priority_units priority_instrument_code :
      List String) :
    Groups → NSLCMap → Except PyErr NSLCMap
  | [], acc => .ok acc
  | (nsl, buckets) :: rest, acc => do
    let entries ← chooseScope target_sample_rate priority_band_code
      priority_units priority_instrument_code buckets
    chooseFromGroupsAux target_sample_rate priority_band_code
      priority_units priority_instrument_code rest
      (scopeInsert nsl entries acc)

/-- Embeds `FDSNStationXML.choose_channels`: group, then select per
scope. -/
def FDSNStationXMLM.choose_channels (sx : FDSNStationXMLM)
    (target_sample_rate : Option ℚ)
    (priority_band_code priority_units priority_instrument_code :
      List String) (q : TimeQuery) :
    Except PyErr (NSLCMap × List Diag) := do
  let (groups, diags) ← sx.get_channel_groups none none none none q
  let m ← chooseFromGroupsAux target_sample_rate priority_band_code
    priority_units priority_instrument_code groups []
  .ok (m, diags)

/-- The sample rate a bucket reports (its first channel's), with a
default that the well-formedness hypothesis below makes irrelevant. -/
def bucketRateD (b : BicKey × List ChannelM) : ℚ :=
  (b.2.head?.bind (fun c => c.sample_rate)).getD 0

/-- Does the bucket pass the target-rate exclusion as the claim words
it: kept unless its rate is strictly below target times 0.99999. -/
def passesTarget (target_sample_rate : Option ℚ)
    (b : BicKey × List ChannelM) : Bool :=
  match target_sample_rate with
  | some t => !decide (bucketRateD b < t * (99999/100000))
  | none => true

/-- The composite sort key of a bucket as the claim lists it. -/
def bucketKeySpec (target_sample_rate : Option ℚ)
    (priority_band_code priority_units priority_instrument_code :
      List String) (b : BicKey × List ChannelM) : SortKey :=
  (-(b.2.length : ℤ),
   (channelPrios priority_band_code priority_instrument_code
     ((b.2.head?.map (fun c => c.code)).getD "")).1,
   (match target_sample_rate with
    | none => -(bucketRateD b)
    | some _ => bucketRateD b),
   unitPrio priority_units b.1.2,
   (channelPrios priority_band_code priority_instrument_code
     ((b.2.head?.map (fun c => c.code)).getD "")).2,
   b.1)

/-- The per-scope selection as the claim words it: exclude buckets below
the target rate, rank the rest ascending by the composite key, select
exactly the first-ranked bucket's members (nothing when no bucket
passes). -/
def chooseScopeSpec (target_sample_rate : Option ℚ)
    (priority_band_code priority_units priority_instrument_code :
      List String) (buckets : Buckets) : List (String × ChannelM) :=
  match isortBy pairKeyLe
      ((buckets.filter (passesTarget target_sample_rate)).map
      (fun b => (bucketKeySpec target_sample_rate priority_band_code
        priority_units priority_instrument_code b, b.2))) with
  | [] => []
  | (_, chs) :: _ => chs.map (fun c => (c.code, c))

/-- The scope loop as the claim words it. -/
def chooseFromGroupsSpec (target_sample_rate : Option ℚ)
    (priority_band_code priority_units priority_instrument_code :
      List String) : Groups → NSLCMap → NSLCMap
  | [], acc => acc
  | (nsl, buckets) :: rest, acc =>
    chooseFromGroupsSpec target_sample_rate priority_band_code
      priority_units priority_instrument_code rest
      (scopeInsert nsl (chooseScopeSpec target_sample_rate
        priority_band_code priority_units priority_instrument_code buckets)
        acc)

/-- Well-formedness of a bucket for selection: nonempty with a sample
rate on its first channel (grouping guarantees this on data that passed
the consistency check). -/
def bucketHeadRated (b : BicKey × List ChannelM) : Bool :=
  match b.2 with
  | [] => false
  | c :: _ => c.sample_rate.isSome

theorem buildUseful_eq (target : Option ℚ) (pb pu pinst : List String)
    (buckets : Buckets)
    (h : ∀ b ∈ buckets, bucketHeadRated b = true) :
    buildUseful target pb pu pinst buckets =
      .ok ((buckets.filter (passesTarget target)).map
        (fun b => (bucketKeySpec target pb pu pinst b, b.2))) := by
  induction buckets with
  | nil => rfl
  | cons b rest ih =>
    have hb := h b (List.mem_cons_self b rest)
    have ihr := ih (fun b2 h2 => h b2 (List.mem_cons_of_mem _ h2))
    obtain ⟨bic, chs⟩ := b
    cases chs with
    | nil => simp [bucketHeadRated] at hb
    | cons c0 cs =>
      cases hr : c0.sample_rate with
      | none => simp [bucketHeadRated, hr] at hb
      | some rate =>
        have hrt : bucketRateD (bic, c0 :: cs) = rate := by
          simp [bucketRateD, hr]
        simp only [buildUseful, hr, ihr, exceptOkBind]
        rw [List.filter_cons]
        cases target with
        | none =>
          simp [passesTarget, bucketKeySpec, hrt]
        | some t =>
          by_cases hlt : rate < t * (99999/100000)
          · simp [passesTarget, hrt, hlt, bucketKeySpec]
          · simp [passesTarget, hrt, hlt, bucketKeySpec]

theorem mem_insortBy {α : Type} (le : α → α → Bool) (a x : α) (l : List α)
    (h : x ∈ insortBy le a l) : x = a ∨ x ∈ l := by
  induction l with
  | nil => simp [insortBy] at h; exact Or.inl h
  | cons b rest ih =>
    rw [insortBy] at h
    split at h
    · rcases List.mem_cons.mp h with h2 | h2
      · exact Or.inl h2
      · exact Or.inr h2
    · rcases List.mem_cons.mp h with h2 | h2
      · exact Or.inr (h2 ▸ List.mem_cons_self b rest)
      · rcases ih h2 with h3 | h3
        · exact Or.inl h3
        · exact Or.inr (List.mem_cons_of_mem _ h3)

theorem mem_isortBy {α : Type} (le : α → α → Bool) (x : α) (l : List α)
    (h : x ∈ isortBy le l) : x ∈ l := by
  induction l with
  | nil => simp [isortBy] at h
  | cons a rest ih =>
    rw [isortBy] at h
    rcases mem_insortBy le a x _ h with h2 | h2
    · exact h2 ▸ List.mem_cons_self a rest
    · exact List.mem_cons_of_mem _ (ih h2)

theorem pickFirst_cons (k : SortKey) (chs : List ChannelM)
    (rest : List (SortKey × List ChannelM)) (h : chs ≠ []) :
    pickFirst ((k, chs) :: rest) = chs.map (fun c => (c.code, c)) := by
  cases chs with
  | nil => exact absurd rfl h
  | cons c cs => rfl

theorem chooseScope_eq (target : Option ℚ) (pb pu pinst : List String)
    (buckets : Buckets)
    (h : ∀ b ∈ buckets, bucketHeadRated b = true) :
    chooseScope target pb pu pinst buckets =
      .ok (chooseScopeSpec target pb pu pinst buckets) := by
  rw [chooseScope, buildUseful_eq target pb pu pinst buckets h,
    exceptOkBind]
  have hne : ∀ x ∈ isortBy pairKeyLe
      ((buckets.filter (passesTarget target)).map
        (fun b => (bucketKeySpec target pb pu pinst b, b.2))),
      x.2 ≠ [] := by
    intro x hx
    have hx2 := mem_isortBy _ _ _ hx
    obtain ⟨b, hbmem, hbeq⟩ := List.mem_map.mp hx2
    have hbuckets := h b (List.mem_filter.mp hbmem).1
    rw [← hbeq]
    cases hchs : b.2 with
    | nil => rw [bucketHeadRated, hchs] at hbuckets; cases hbuckets
    | cons c cs => simp
  rw [chooseScopeSpec]
  cases hsort : isortBy pairKeyLe
      ((buckets.filter (passesTarget target)).map
        (fun b => (bucketKeySpec target pb pu pinst b, b.2))) with
  | nil => rfl
  | cons p rest =>
    obtain ⟨k, chs⟩ := p
    have hp : chs ≠ [] :=
      hne (k, chs) (by rw [hsort]; exact List.mem_cons_self _ _)
    rw [pickFirst_cons k chs rest hp]

theorem chooseFromGroups_eq (target : Option ℚ) (pb pu pinst : List String)
    (groups : Groups) (acc : NSLCMap)
    (h : ∀ p ∈ groups, ∀ b ∈ p.2, bucketHeadRated b = true) :
    chooseFromGroupsAux target pb pu pinst groups acc =
      .ok (chooseFromGroupsSpec target pb pu pinst groups acc) := by
  induction groups generalizing acc with
  | nil => rfl
  | cons p rest ih =>
    obtain ⟨nsl, buckets⟩ := p
    have hp := h (nsl, buckets) (List.mem_cons_self _ rest)
    have hrest := fun p2 h2 => h p2 (List.mem_cons_of_mem _ h2)
    rw [chooseFromGroupsAux, chooseScope_eq target pb pu pinst buckets hp,
      exceptOkBind, chooseFromGroupsSpec]
    exact ih _ hrest

/-- The scenario-B station XML: one location carrying an "H"-band and an
"L"-band channel, one member each. -/
def sxB : FDSNStationXMLM :=
  { network_list := [
      { code := "NN", station_list := [
        { code := "SS", latitude := .fin 0, longitude := .fin 0,
          channel_list := [mkChan "LHZ" 1, mkChan "HHZ" 100] } ] } ] }

/-- Claim C1: for every scope, `choose_channels` excludes the buckets
whose rate is strictly below target times 0.99999, ranks the remaining
buckets ascending by the composite key (negative member count, band-code
priority with absent codes last, sample rate negated when no target is
given, unit priority, instrument-code priority, bucket key), and enters
exactly the first-ranked bucket's members under (network, station,
location, channel code), scopes with no passing bucket contributing
nothing — stated as equality with the selection spelled out from the
claim, for buckets whose first channel carries a sample rate.  With the
default priorities, no target rate and equal member counts, the "H"-band
bucket is selected over the "L"-band one. -/
theorem choose_channels_selection :
    (∀ (target : Option ℚ) (pb pu pinst : List String) (groups : Groups)
      (acc : NSLCMap),
      (∀ p ∈ groups, ∀ b ∈ p.2, bucketHeadRated b = true) →
      chooseFromGroupsAux target pb pu pinst groups acc =
        .ok (chooseFromGroupsSpec target pb pu pinst groups acc)) ∧
    sxB.choose_channels none ["H", "B", "M", "L", "V", "E", "S"]
        ["M/S", "M/S**2"] ["H", "L"] .always =
      .ok ([(("NN", "SS", "", "HHZ"), mkChan "HHZ" 100)], []) :=
  ⟨fun target pb pu pinst groups acc h =>
      chooseFromGroups_eq target pb pu pinst groups acc h,
   by decide⟩

/-- Witness for C1: the loop-with-break selection equals the
rank-and-take-first selection on the scenario-B scope. -/
theorem choose_channels_selection_witness :
    chooseFromGroupsAux none ["H", "B", "M", "L", "V", "E", "S"]
        ["M/S", "M/S**2"] ["H", "L"]
        [(("NN", "SS", ""),
          [(("LH", none), [mkChan "LHZ" 1]),
           (("HH", none), [mkChan "HHZ" 100])])] [] =
      .ok (chooseFromGroupsSpec none ["H", "B", "M", "L", "V", "E", "S"]
        ["M/S", "M/S**2"] ["H", "L"]
        [(("NN", "SS", ""),
          [(("LH", none), [mkChan "LHZ" 1]),
           (("HH", none), [mkChan "HHZ" 100])])] []) :=
  choose_channels_selection.1 none ["H", "B", "M", "L", "V", "E", "S"]
    ["M/S", "M/S**2"] ["H", "L"]
    [(("NN", "SS", ""),
      [(("LH", none), [mkChan "LHZ" 1]),
       (("HH", none), [mkChan "HHZ" 100])])] [] (by decide)
